import Mathlib

/-!
# go-processout: the AuthorizationRequests client (authorization_request.go)

A shallow embedding of the four operations of `AuthorizationRequests`
(`Customer`, `Authorize`, `Create`, `Find`) and the properties of the requests
they build and of the results they return.

Modelling conventions.

* Go strings are modelled by Lean strings, that is, by valid Unicode text.
* A Go pointer is an `Option`; dereferencing `none` panics.
* A Go result pair `(*T, error)` is a pair of options, `none` standing for nil.
* What lives outside the source file is a field of `Env`: the constant `Host`,
  `json.Marshal`, the validation done by `http.NewRequest`, the transport behind
  `http.DefaultClient.Do` and the JSON reading of a response body.
* Every run records the HTTP calls it issued, in order.
-/

namespace Processout

/-! ## Values of the Go runtime and standard library -/

/-- Byte content of a request or response body (JSON text). -/
abbrev Bytes := String

/-- A Go `error` value: either built by `errors.New` or handed back by a library call. -/
inductive GoError where
  | errorString (s : String)
  | library (origin : String) (s : String)
  deriving DecidableEq, Repr

/-- The `Error()` method: the text of an error. -/
def GoError.Error : GoError → String
  | .errorString s => s
  | .library _ s => s

/-- Go `errors.New`. -/
def errors.New (text : String) : GoError := .errorString text

/-- A Go `[]string`: `none` is the nil slice. -/
abbrev StringSlice := Option (List String)

/-- The values stored in the `map[string]interface{}` literals of the source. -/
inductive JsonValue where
  | str (s : String)
  | strings (xs : StringSlice)
  deriving DecidableEq, Repr

/-- A `map[string]interface{}` literal, entries in source order. -/
abbrev JsonObject := List (String × JsonValue)

/-- The message of the runtime panic raised by a nil pointer dereference. -/
def nilDereference : String :=
  "runtime error: invalid memory address or nil pointer dereference"

/-! ### net/url: QueryEscape -/

/-- UTF-8 encoding of one character, as a list of byte values. -/
def utf8Bytes (c : Char) : List Nat :=
  let n := c.toNat
  if n < 128 then [n]
  else if n < 2048 then [192 + n / 64, 128 + n % 64]
  else if n < 65536 then [224 + n / 4096, 128 + n / 64 % 64, 128 + n % 64]
  else [240 + n / 262144, 128 + n / 4096 % 64, 128 + n / 64 % 64, 128 + n % 64]

/-- The bytes of a string. -/
def stringBytes (s : String) : List Nat :=
  s.toList.flatMap utf8Bytes

/-- Uppercase hexadecimal digit of a value below 16. -/
def upperhex (n : Nat) : Char :=
  if n < 10 then Char.ofNat (48 + n) else Char.ofNat (55 + n)

/-- Whether `url.QueryEscape` leaves the byte as it is: letters, digits and `-`, `_`, `.`, `~`. -/
def url.unreserved (b : Nat) : Bool :=
  (97 ≤ b && b ≤ 122) || (65 ≤ b && b ≤ 90) || (48 ≤ b && b ≤ 57)
    || b == 45 || b == 95 || b == 46 || b == 126

/-- Escaping of one byte in query-component mode. -/
def url.escapeByte (b : Nat) : List Char :=
  if url.unreserved b then [Char.ofNat b]
  else if b == 32 then ['+']
  else ['%', upperhex (b / 16), upperhex (b % 16)]

/-- Go `url.QueryEscape`. -/
def url.QueryEscape (s : String) : String :=
  String.mk ((stringBytes s).flatMap url.escapeByte)

/-! ### encoding/base64 and net/http -/

/-- The standard base64 alphabet. -/
def base64.digit (n : Nat) : Char :=
  if n < 26 then Char.ofNat (65 + n)
  else if n < 52 then Char.ofNat (71 + n)
  else if n < 62 then Char.ofNat (n - 4)
  else if n = 62 then '+' else '/'

/-- Standard base64 with padding, on a list of bytes. -/
def base64.encode : List Nat → List Char
  | a :: b :: c :: rest =>
    base64.digit (a / 4) :: base64.digit (a % 4 * 16 + b / 16)
      :: base64.digit (b % 16 * 4 + c / 64) :: base64.digit (c % 64) :: base64.encode rest
  | [a, b] =>
    [base64.digit (a / 4), base64.digit (a % 4 * 16 + b / 16), base64.digit (b % 16 * 4), '=']
  | [a] => [base64.digit (a / 4), base64.digit (a % 4 * 16), '=', '=']
  | [] => []

/-- Go `base64.StdEncoding.EncodeToString` of the bytes of a string. -/
def base64.EncodeToString (s : String) : String :=
  String.mk (base64.encode (stringBytes s))

/-- The credentials string of `net/http`: base64 of `username:password`. -/
def http.basicAuth (username password : String) : String :=
  base64.EncodeToString (username ++ ":" ++ password)

/-- Whether a character may appear in a header field name (an HTTP token character). -/
def textproto.validHeaderFieldByte (c : Char) : Bool :=
  let n := c.toNat
  (97 ≤ n && n ≤ 122) || (65 ≤ n && n ≤ 90) || (48 ≤ n && n ≤ 57)
    || n ∈ [33, 35, 36, 37, 38, 39, 42, 43, 45, 46, 94, 95, 96, 124, 126]

/-- The canonicalising loop: upper case at the start and after a hyphen, lower case elsewhere. -/
def textproto.canonicalLoop : Bool → List Char → List Char
  | _, [] => []
  | upper, c :: cs =>
    let n := c.toNat
    let d : Char :=
      if upper && (97 ≤ n && n ≤ 122) then Char.ofNat (n - 32)
      else if !upper && (65 ≤ n && n ≤ 90) then Char.ofNat (n + 32)
      else c
    d :: textproto.canonicalLoop (d == '-') cs

/-- Go `textproto.CanonicalMIMEHeaderKey`: names with a non-token character are left alone. -/
def textproto.CanonicalMIMEHeaderKey (s : String) : String :=
  if s.toList.all textproto.validHeaderFieldByte then
    String.mk (textproto.canonicalLoop true s.toList)
  else s

/-- Go `http.Header`: a map from canonical field names to their values. -/
structure http.Header where
  entries : List (String × List String)
  deriving DecidableEq, Repr

/-- The empty header map of a fresh request. -/
def http.Header.empty : http.Header := ⟨[]⟩

/-- Go `Header.Set`: the canonical key now maps to the single value. -/
def http.Header.Set (h : http.Header) (key value : String) : http.Header :=
  let k := textproto.CanonicalMIMEHeaderKey key
  ⟨(k, [value]) :: h.entries.filter (fun kv => kv.1 != k)⟩

/-- The values stored under a field name, `none` when the header is not set. -/
def http.Header.Values (h : http.Header) (key : String) : Option (List String) :=
  h.entries.lookup (textproto.CanonicalMIMEHeaderKey key)

/-- Go `http.Request`, as far as the source fills it. -/
structure http.Request where
  Method : String
  URL : String
  Header : http.Header
  Body : Bytes
  deriving DecidableEq, Repr

/-- Go `Request.SetBasicAuth`. -/
def http.Request.SetBasicAuth (r : http.Request) (username password : String) : http.Request :=
  { r with Header := r.Header.Set "Authorization" ("Basic " ++ http.basicAuth username password) }

/-- The assignment `req.Header.Set(key, value)` on a request. -/
def http.Request.setHeader (r : http.Request) (key value : String) : http.Request :=
  { r with Header := r.Header.Set key value }

/-- Go `http.Response`, as far as the source reads it. -/
structure http.Response where
  StatusCode : Nat
  Body : Bytes
  deriving DecidableEq, Repr

/-! ## The records of the client -/

/-- Modelled from the spec: the `ProcessOut` client record, whose declaration is not in the
source file; the three fields are the ones the operations read. -/
structure ProcessOut where
  APIVersion : String
  projectID : String
  projectSecret : String
  deriving DecidableEq, Repr

/-- Modelled from the spec: the `Options` record, whose declaration is not in the source
file; the two fields are the ones the operations read. -/
structure Options where
  IdempotencyKey : String
  Expand : StringSlice
  deriving DecidableEq, Repr

/-- The composite literal `Options{}`: every field has its zero value. -/
def Options.zero : Options := { IdempotencyKey := "", Expand := none }

/-- Modelled from the spec: the `Project` record, whose declaration is not in the source
file, a plain record of JSON-tagged fields, kept as its decoded field list. -/
structure Project where
  fields : List (String × String)
  deriving DecidableEq, Repr

/-- Modelled from the spec: the `Customer` record, whose declaration is not in the source
file, a plain record of JSON-tagged fields, kept as its decoded field list. -/
structure Customer where
  fields : List (String × String)
  deriving DecidableEq, Repr

/-- Modelled from the spec: the `Token` record, whose declaration is not in the source
file, a plain record of JSON-tagged fields, kept as its decoded field list. -/
structure Token where
  fields : List (String × String)
  deriving DecidableEq, Repr

/-- The zero value of `Customer`. -/
def Customer.zero : Customer := ⟨[]⟩

/-- The zero value of `Token`. -/
def Token.zero : Token := ⟨[]⟩

/-- The record `AuthorizationRequest`; `CreatedAt` is a `time.Time`, kept as an instant. -/
structure AuthorizationRequest where
  ID : String
  Project : Option Project
  Customer : Option Customer
  URL : String
  Name : String
  Currency : String
  ReturnURL : String
  CancelURL : String
  Custom : String
  Sandbox : Bool
  CreatedAt : Int
  deriving DecidableEq, Repr

/-- The zero value of `AuthorizationRequest`. -/
def AuthorizationRequest.zero : AuthorizationRequest :=
  { ID := "", Project := none, Customer := none, URL := "", Name := "", Currency := "",
    ReturnURL := "", CancelURL := "", Custom := "", Sandbox := false, CreatedAt := 0 }

/-- The manager `AuthorizationRequests`: a pointer to the client. -/
structure AuthorizationRequests where
  p : Option ProcessOut
  deriving DecidableEq, Repr

/-- The JSON object of a response body, as far as the `Response` records of the source read
it: a key that is absent from the object (or null) is `none`. -/
structure Envelope where
  success : Option Bool
  message : Option String
  customer : Option Customer
  token : Option Token
  authorization_request : Option AuthorizationRequest
  deriving DecidableEq, Repr

/-! ## What lies outside the source file -/

/-- The surroundings of the operations.

* `Host`: the package constant, declared in another file.
* `index`: the index expression applied to an `Options` value (lines 47, 104, 164, 228).
* `Marshal`: `json.Marshal` on a map literal.
* `validate`: the method and URL checks of `http.NewRequest`, `none` when they pass.
* `Do`: `http.DefaultClient.Do`, the one place where a request leaves the process.
* `jsonDecode`: `encoding/json` reading a response body as a JSON object. -/
structure Env where
  Host : String
  index : Options → Nat → Options
  Marshal : JsonObject → Except GoError Bytes
  validate : String → String → Option GoError
  Do : http.Request → Except GoError http.Response
  jsonDecode : Bytes → Except GoError Envelope

/-- Go `http.NewRequest`: a request with the given method, URL and body and no header. -/
def http.NewRequest (E : Env) (method url : String) (body : Bytes) :
    Except GoError http.Request :=
  match E.validate method url with
  | some err => .error err
  | none => .ok { Method := method, URL := url, Header := http.Header.empty, Body := body }

/-- How a call ends: it returns the pair `(result, err)` or it panics. -/
inductive Outcome (α : Type) where
  | returned (result : Option α) (err : Option GoError)
  | panicked (msg : String)
  deriving DecidableEq, Repr

/-- A finished call: the HTTP calls issued through `Do`, in order, and the outcome. -/
structure Run (α : Type) where
  calls : List http.Request
  outcome : Outcome α
  deriving DecidableEq, Repr

/-- The message of the explicit panic of the four operations. -/
def optionsPanic : String := "The options parameter should only be provided once."

/-- Lines 45-48 (and 102-105, 162-165, 226-229): `options := Options{}` followed, when
exactly one variadic argument was passed, by `options = options[0]`. The index expression is
applied to the local `options`; the list `optionss` is only measured. -/
def resolveOptions (E : Env) (optionss : List Options) : Options :=
  let options := Options.zero
  if optionss.length = 1 then E.index options 0 else options

/-! ## The `Response` records and their decoding -/

/-- The local record `Response` of `Customer`. -/
structure AuthorizationRequests.Customer.Response where
  Customer : Customer
  Success : Bool
  Message : String
  deriving DecidableEq, Repr

/-- The local record `Response` of `Authorize`. -/
structure AuthorizationRequests.Authorize.Response where
  Token : Token
  Success : Bool
  Message : String
  deriving DecidableEq, Repr

/-- The local record `Response` of `Create`. -/
structure AuthorizationRequests.Create.Response where
  AuthorizationRequest : AuthorizationRequest
  Success : Bool
  Message : String
  deriving DecidableEq, Repr

/-- The local record `Response` of `Find`. -/
structure AuthorizationRequests.Find.Response where
  AuthorizationRequest : AuthorizationRequest
  Success : Bool
  Message : String
  deriving DecidableEq, Repr

/-- Decoding into `&Response{}` of `Customer`: the keys `customer`, `success`, `message`;
a field whose key is absent keeps its zero value. -/
def AuthorizationRequests.Customer.Decode (E : Env) (body : Bytes) :
    Except GoError AuthorizationRequests.Customer.Response :=
  match E.jsonDecode body with
  | .error err => .error err
  | .ok w => .ok { Customer := w.customer.getD Customer.zero,
                   Success := w.success.getD false, Message := w.message.getD "" }

/-- Decoding into `&Response{}` of `Authorize`: the keys `token`, `success`, `message`. -/
def AuthorizationRequests.Authorize.Decode (E : Env) (body : Bytes) :
    Except GoError AuthorizationRequests.Authorize.Response :=
  match E.jsonDecode body with
  | .error err => .error err
  | .ok w => .ok { Token := w.token.getD Token.zero,
                   Success := w.success.getD false, Message := w.message.getD "" }

/-- Decoding into `&Response{}` of `Create`: the keys `authorization_request`, `success`,
`message`. -/
def AuthorizationRequests.Create.Decode (E : Env) (body : Bytes) :
    Except GoError AuthorizationRequests.Create.Response :=
  match E.jsonDecode body with
  | .error err => .error err
  | .ok w => .ok { AuthorizationRequest := w.authorization_request.getD AuthorizationRequest.zero,
                   Success := w.success.getD false, Message := w.message.getD "" }

/-- Decoding into `&Response{}` of `Find`: the keys `authorization_request`, `success`,
`message`. -/
def AuthorizationRequests.Find.Decode (E : Env) (body : Bytes) :
    Except GoError AuthorizationRequests.Find.Response :=
  match E.jsonDecode body with
  | .error err => .error err
  | .ok w => .ok { AuthorizationRequest := w.authorization_request.getD AuthorizationRequest.zero,
                   Success := w.success.getD false, Message := w.message.getD "" }

/-! ## The four operations -/

/-- The map literal of `Customer` (lines 59-61). -/
def AuthorizationRequests.Customer.body (options : Options) : JsonObject :=
  [("expand", .strings options.Expand)]

/-- The path of `Customer` (line 66). -/
def AuthorizationRequests.Customer.path (authorizationRequest : AuthorizationRequest) : String :=
  "/authorization-requests/" ++ url.QueryEscape authorizationRequest.ID ++ "/customers"

/-- The map literal of `Authorize` (lines 116-120). -/
def AuthorizationRequests.Authorize.body (name token : String) (options : Options) : JsonObject :=
  [("name", .str name), ("token", .str token), ("expand", .strings options.Expand)]

/-- The path of `Authorize` (line 125). -/
def AuthorizationRequests.Authorize.path (authorizationRequest : AuthorizationRequest)
    (gatewayName : String) : String :=
  "/authorization-requests/" ++ url.QueryEscape authorizationRequest.ID ++ "/gateways/"
    ++ url.QueryEscape gatewayName ++ "/tokens"

/-- The map literal of `Create` (lines 176-184). -/
def AuthorizationRequests.Create.body (authorizationRequest : AuthorizationRequest)
    (customerID : String) (options : Options) : JsonObject :=
  [("name", .str authorizationRequest.Name),
   ("currency", .str authorizationRequest.Currency),
   ("return_url", .str authorizationRequest.ReturnURL),
   ("cancel_url", .str authorizationRequest.CancelURL),
   ("custom", .str authorizationRequest.Custom),
   ("customer_id", .str customerID),
   ("expand", .strings options.Expand)]

/-- The path of `Create` (line 189). -/
def AuthorizationRequests.Create.path : String := "/authorization-requests"

/-- The map literal of `Find` (lines 240-242). -/
def AuthorizationRequests.Find.body (options : Options) : JsonObject :=
  [("expand", .strings options.Expand)]

/-- The path of `Find` (line 247). -/
def AuthorizationRequests.Find.path (authorizationRequestID : String) : String :=
  "/authorization-requests/" ++ url.QueryEscape authorizationRequestID ++ ""

/-- `Customer`: get the customer linked to the authorization request (lines 44-98). -/
def AuthorizationRequests.Customer (E : Env) (s : AuthorizationRequests)
    (authorizationRequest : Option AuthorizationRequest) (optionss : List Options) :
    Run Processout.Customer :=
  let options := resolveOptions E optionss
  if optionss.length > 1 then ⟨[], .panicked optionsPanic⟩ else
  match E.Marshal (AuthorizationRequests.Customer.body options) with
  | .error err => ⟨[], .returned none (some err)⟩
  | .ok body =>
  match authorizationRequest with
  | none => ⟨[], .panicked nilDereference⟩
  | some ar =>
  let path := AuthorizationRequests.Customer.path ar
  match http.NewRequest E "GET" (E.Host ++ path) body with
  | .error err => ⟨[], .returned none (some err)⟩
  | .ok req =>
  match s.p with
  | none => ⟨[], .panicked nilDereference⟩
  | some p =>
  let req := req.setHeader "API-Version" p.APIVersion
  let req := req.setHeader "Accept" "application/json"
  let req := if options.IdempotencyKey ≠ "" then
      req.setHeader "Idempotency-Key" options.IdempotencyKey else req
  let req := req.SetBasicAuth p.projectID p.projectSecret
  match E.Do req with
  | .error err => ⟨[req], .returned none (some err)⟩
  | .ok res =>
  match AuthorizationRequests.Customer.Decode E res.Body with
  | .error err => ⟨[req], .returned none (some err)⟩
  | .ok payload =>
  if !payload.Success then ⟨[req], .returned none (some (errors.New payload.Message))⟩
  else ⟨[req], .returned (some payload.Customer) none⟩

/-- `Authorize`: authorize (create) a new customer token on the given gateway
(lines 101-158). -/
def AuthorizationRequests.Authorize (E : Env) (s : AuthorizationRequests)
    (authorizationRequest : Option AuthorizationRequest) (gatewayName name token : String)
    (optionss : List Options) : Run Processout.Token :=
  let options := resolveOptions E optionss
  if optionss.length > 1 then ⟨[], .panicked optionsPanic⟩ else
  match E.Marshal (AuthorizationRequests.Authorize.body name token options) with
  | .error err => ⟨[], .returned none (some err)⟩
  | .ok body =>
  match authorizationRequest with
  | none => ⟨[], .panicked nilDereference⟩
  | some ar =>
  let path := AuthorizationRequests.Authorize.path ar gatewayName
  match http.NewRequest E "POST" (E.Host ++ path) body with
  | .error err => ⟨[], .returned none (some err)⟩
  | .ok req =>
  let req := req.setHeader "Content-Type" "application/json"
  match s.p with
  | none => ⟨[], .panicked nilDereference⟩
  | some p =>
  let req := req.setHeader "API-Version" p.APIVersion
  let req := req.setHeader "Accept" "application/json"
  let req := if options.IdempotencyKey ≠ "" then
      req.setHeader "Idempotency-Key" options.IdempotencyKey else req
  let req := req.SetBasicAuth p.projectID p.projectSecret
  match E.Do req with
  | .error err => ⟨[req], .returned none (some err)⟩
  | .ok res =>
  match AuthorizationRequests.Authorize.Decode E res.Body with
  | .error err => ⟨[req], .returned none (some err)⟩
  | .ok payload =>
  if !payload.Success then ⟨[req], .returned none (some (errors.New payload.Message))⟩
  else ⟨[req], .returned (some payload.Token) none⟩

/-- `Create`: create a new authorization request for the given customer ID
(lines 161-222). The map literal reads the record, so a nil record panics before
`json.Marshal` is called. -/
def AuthorizationRequests.Create (E : Env) (s : AuthorizationRequests)
    (authorizationRequest : Option AuthorizationRequest) (customerID : String)
    (optionss : List Options) : Run Processout.AuthorizationRequest :=
  let options := resolveOptions E optionss
  if optionss.length > 1 then ⟨[], .panicked optionsPanic⟩ else
  match authorizationRequest with
  | none => ⟨[], .panicked nilDereference⟩
  | some ar =>
  match E.Marshal (AuthorizationRequests.Create.body ar customerID options) with
  | .error err => ⟨[], .returned none (some err)⟩
  | .ok body =>
  let path := AuthorizationRequests.Create.path
  match http.NewRequest E "POST" (E.Host ++ path) body with
  | .error err => ⟨[], .returned none (some err)⟩
  | .ok req =>
  let req := req.setHeader "Content-Type" "application/json"
  match s.p with
  | none => ⟨[], .panicked nilDereference⟩
  | some p =>
  let req := req.setHeader "API-Version" p.APIVersion
  let req := req.setHeader "Accept" "application/json"
  let req := if options.IdempotencyKey ≠ "" then
      req.setHeader "Idempotency-Key" options.IdempotencyKey else req
  let req := req.SetBasicAuth p.projectID p.projectSecret
  match E.Do req with
  | .error err => ⟨[req], .returned none (some err)⟩
  | .ok res =>
  match AuthorizationRequests.Create.Decode E res.Body with
  | .error err => ⟨[req], .returned none (some err)⟩
  | .ok payload =>
  if !payload.Success then ⟨[req], .returned none (some (errors.New payload.Message))⟩
  else ⟨[req], .returned (some payload.AuthorizationRequest) none⟩

/-- `Find`: find an authorization request by its ID (lines 225-279). -/
def AuthorizationRequests.Find (E : Env) (s : AuthorizationRequests)
    (authorizationRequestID : String) (optionss : List Options) :
    Run Processout.AuthorizationRequest :=
  let options := resolveOptions E optionss
  if optionss.length > 1 then ⟨[], .panicked optionsPanic⟩ else
  match E.Marshal (AuthorizationRequests.Find.body options) with
  | .error err => ⟨[], .returned none (some err)⟩
  | .ok body =>
  let path := AuthorizationRequests.Find.path authorizationRequestID
  match http.NewRequest E "GET" (E.Host ++ path) body with
  | .error err => ⟨[], .returned none (some err)⟩
  | .ok req =>
  match s.p with
  | none => ⟨[], .panicked nilDereference⟩
  | some p =>
  let req := req.setHeader "API-Version" p.APIVersion
  let req := req.setHeader "Accept" "application/json"
  let req := if options.IdempotencyKey ≠ "" then
      req.setHeader "Idempotency-Key" options.IdempotencyKey else req
  let req := req.SetBasicAuth p.projectID p.projectSecret
  match E.Do req with
  | .error err => ⟨[req], .returned none (some err)⟩
  | .ok res =>
  match AuthorizationRequests.Find.Decode E res.Body with
  | .error err => ⟨[req], .returned none (some err)⟩
  | .ok payload =>
  if !payload.Success then ⟨[req], .returned none (some (errors.New payload.Message))⟩
  else ⟨[req], .returned (some payload.AuthorizationRequest) none⟩

/-! ## The common shape of the four operations

The four operations are the same sequence of steps with different parameters. The
definitions below spell that sequence out once; each operation is proved equal to an
instance of it (`Customer_eq_exchange` and its siblings), so that a property of the
sequence is a property of each operation. -/

/-- The header assignments shared by the four operations, in source order: `API-Version`,
`Accept`, `Idempotency-Key` when the key is not empty, then `SetBasicAuth`. -/
def dress (req : http.Request) (p : ProcessOut) (options : Options) : http.Request :=
  let req := req.setHeader "API-Version" p.APIVersion
  let req := req.setHeader "Accept" "application/json"
  let req := if options.IdempotencyKey ≠ "" then
      req.setHeader "Idempotency-Key" options.IdempotencyKey else req
  req.SetBasicAuth p.projectID p.projectSecret

/-- The request as `http.NewRequest` returns it, with `Content-Type` set when the operation
is a POST. -/
def freshRequest (E : Env) (method path : String) (json : Bool) (body : Bytes) : http.Request :=
  let req : http.Request :=
    { Method := method, URL := E.Host ++ path, Header := http.Header.empty, Body := body }
  if json then req.setHeader "Content-Type" "application/json" else req

/-- The shared end of the four operations: send the request, decode the body, read the
envelope. -/
def conclude {α : Type} (E : Env) (req : http.Request) (select : Envelope → α) : Run α :=
  match E.Do req with
  | .error err => ⟨[req], .returned none (some err)⟩
  | .ok res =>
  match E.jsonDecode res.Body with
  | .error err => ⟨[req], .returned none (some err)⟩
  | .ok w =>
  if w.success.getD false = true then ⟨[req], .returned (some (select w)) none⟩
  else ⟨[req], .returned none (some (errors.New (w.message.getD "")))⟩

/-- The shared sequence of steps. `obj` is the map literal (`none` when building it
dereferences a nil record), `path` the request path (`none` when building it dereferences a
nil record), `json` tells whether `Content-Type` is set, `select` reads the resource. -/
def exchange {α : Type} (E : Env) (s : AuthorizationRequests) (optionss : List Options)
    (method : String) (json : Bool) (obj : Option JsonObject) (path : Option String)
    (select : Envelope → α) : Run α :=
  if optionss.length > 1 then ⟨[], .panicked optionsPanic⟩ else
  match obj with
  | none => ⟨[], .panicked nilDereference⟩
  | some o =>
  match E.Marshal o with
  | .error err => ⟨[], .returned none (some err)⟩
  | .ok body =>
  match path with
  | none => ⟨[], .panicked nilDereference⟩
  | some path =>
  match E.validate method (E.Host ++ path) with
  | some err => ⟨[], .returned none (some err)⟩
  | none =>
  match s.p with
  | none => ⟨[], .panicked nilDereference⟩
  | some p =>
  conclude E (dress (freshRequest E method path json body) p (resolveOptions E optionss)) select

/-! ## Sample values, used to run the operations on concrete inputs -/

/-- A sample environment: the transport answers `doResult`, the body reader answers
`decodeResult`, marshalling and request validation succeed, and the index expression on an
`Options` value hands the value back. -/
def sampleEnv (doResult : Except GoError http.Response)
    (decodeResult : Except GoError Envelope) : Env :=
  { Host := "https://api.processout.com"
    index := fun o _ => o
    Marshal := fun o => .ok (String.intercalate "," (o.map Prod.fst))
    validate := fun _ _ => none
    Do := fun _ => doResult
    jsonDecode := fun _ => decodeResult }

/-- A sample environment in which `json.Marshal` fails. -/
def sampleEnvMarshalFails (err : GoError) : Env :=
  { sampleEnv (.ok ⟨200, ""⟩) (.error err) with Marshal := fun _ => .error err }

/-- A sample environment in which `http.NewRequest` fails. -/
def sampleEnvNewRequestFails (err : GoError) : Env :=
  { sampleEnv (.ok ⟨200, ""⟩) (.error err) with validate := fun _ _ => some err }

/-- A sample client. -/
def sampleClient : ProcessOut :=
  { APIVersion := "1.3.0.0", projectID := "proj_1", projectSecret := "key" }

/-- A sample manager holding the sample client. -/
def sampleManager : AuthorizationRequests := ⟨some sampleClient⟩

/-- A sample authorization request record. -/
def sampleRecord : AuthorizationRequest :=
  { AuthorizationRequest.zero with ID := "ar 1", Name := "n", Currency := "USD" }

/-- A sample envelope. -/
def sampleEnvelope (success : Option Bool) (message : Option String) : Envelope :=
  { success := success, message := message, customer := some ⟨[("id", "cust_1")]⟩,
    token := some ⟨[("id", "tok_1")]⟩, authorization_request := some sampleRecord }

/-! ## The operations are instances of the common shape -/

theorem Customer_eq_exchange (E : Env) (s : AuthorizationRequests)
    (ar : Option AuthorizationRequest) (optionss : List Options) :
    AuthorizationRequests.Customer E s ar optionss
      = exchange E s optionss "GET" false
          (some (AuthorizationRequests.Customer.body (resolveOptions E optionss)))
          (ar.map AuthorizationRequests.Customer.path)
          (fun w => w.customer.getD Customer.zero) := by
  unfold AuthorizationRequests.Customer exchange conclude dress freshRequest http.NewRequest
    AuthorizationRequests.Customer.Decode
  by_cases hlen : optionss.length > 1
  · simp [hlen]
  · simp only [hlen, if_false]
    cases E.Marshal (AuthorizationRequests.Customer.body (resolveOptions E optionss)) with
    | error e => rfl
    | ok body =>
      cases ar with
      | none => rfl
      | some a =>
        simp only [Option.map]
        cases E.validate "GET" (E.Host ++ AuthorizationRequests.Customer.path a) with
        | some e => rfl
        | none =>
          cases s.p with
          | none => rfl
          | some p =>
            by_cases hk : (resolveOptions E optionss).IdempotencyKey = ""
            all_goals
              simp only [hk, ne_eq, not_true_eq_false, not_false_eq_true, if_true, if_false,
                Bool.false_eq_true]
              generalize http.Request.SetBasicAuth _ _ _ = q
              cases E.Do q with
              | error e => rfl
              | ok res =>
                simp only []
                cases E.jsonDecode res.Body with
                | error e => rfl
                | ok w =>
                  simp only []
                  cases hs : w.success.getD false <;> simp

theorem Authorize_eq_exchange (E : Env) (s : AuthorizationRequests)
    (ar : Option AuthorizationRequest) (gatewayName name token : String)
    (optionss : List Options) :
    AuthorizationRequests.Authorize E s ar gatewayName name token optionss
      = exchange E s optionss "POST" true
          (some (AuthorizationRequests.Authorize.body name token (resolveOptions E optionss)))
          (ar.map (fun a => AuthorizationRequests.Authorize.path a gatewayName))
          (fun w => w.token.getD Token.zero) := by
  unfold AuthorizationRequests.Authorize exchange conclude dress freshRequest http.NewRequest
    AuthorizationRequests.Authorize.Decode
  by_cases hlen : optionss.length > 1
  · simp [hlen]
  · simp only [hlen, if_false]
    cases E.Marshal
        (AuthorizationRequests.Authorize.body name token (resolveOptions E optionss)) with
    | error e => rfl
    | ok body =>
      cases ar with
      | none => rfl
      | some a =>
        simp only [Option.map]
        cases E.validate "POST" (E.Host ++ AuthorizationRequests.Authorize.path a gatewayName) with
        | some e => rfl
        | none =>
          cases s.p with
          | none => rfl
          | some p =>
            by_cases hk : (resolveOptions E optionss).IdempotencyKey = ""
            all_goals
              simp only [hk, ne_eq, not_true_eq_false, not_false_eq_true, if_true, if_false]
              generalize http.Request.SetBasicAuth _ _ _ = q
              cases E.Do q with
              | error e => rfl
              | ok res =>
                simp only []
                cases E.jsonDecode res.Body with
                | error e => rfl
                | ok w =>
                  simp only []
                  cases hs : w.success.getD false <;> simp

theorem Create_eq_exchange (E : Env) (s : AuthorizationRequests)
    (ar : Option AuthorizationRequest) (customerID : String) (optionss : List Options) :
    AuthorizationRequests.Create E s ar customerID optionss
      = exchange E s optionss "POST" true
          (ar.map (fun a =>
            AuthorizationRequests.Create.body a customerID (resolveOptions E optionss)))
          (some AuthorizationRequests.Create.path)
          (fun w => w.authorization_request.getD AuthorizationRequest.zero) := by
  unfold AuthorizationRequests.Create exchange conclude dress freshRequest http.NewRequest
    AuthorizationRequests.Create.Decode
  by_cases hlen : optionss.length > 1
  · simp [hlen]
  · simp only [hlen, if_false]
    cases ar with
    | none => rfl
    | some a =>
      simp only [Option.map]
      cases E.Marshal
          (AuthorizationRequests.Create.body a customerID (resolveOptions E optionss)) with
      | error e => rfl
      | ok body =>
        simp only []
        cases E.validate "POST" (E.Host ++ AuthorizationRequests.Create.path) with
        | some e => rfl
        | none =>
          cases s.p with
          | none => rfl
          | some p =>
            by_cases hk : (resolveOptions E optionss).IdempotencyKey = ""
            all_goals
              simp only [hk, ne_eq, not_true_eq_false, not_false_eq_true, if_true, if_false]
              generalize http.Request.SetBasicAuth _ _ _ = q
              cases E.Do q with
              | error e => rfl
              | ok res =>
                simp only []
                cases E.jsonDecode res.Body with
                | error e => rfl
                | ok w =>
                  simp only []
                  cases hs : w.success.getD false <;> simp

theorem Find_eq_exchange (E : Env) (s : AuthorizationRequests)
    (authorizationRequestID : String) (optionss : List Options) :
    AuthorizationRequests.Find E s authorizationRequestID optionss
      = exchange E s optionss "GET" false
          (some (AuthorizationRequests.Find.body (resolveOptions E optionss)))
          (some (AuthorizationRequests.Find.path authorizationRequestID))
          (fun w => w.authorization_request.getD AuthorizationRequest.zero) := by
  unfold AuthorizationRequests.Find exchange conclude dress freshRequest http.NewRequest
    AuthorizationRequests.Find.Decode
  by_cases hlen : optionss.length > 1
  · simp [hlen]
  · simp only [hlen, if_false]
    cases E.Marshal (AuthorizationRequests.Find.body (resolveOptions E optionss)) with
    | error e => rfl
    | ok body =>
      simp only []
      cases E.validate "GET" (E.Host ++ AuthorizationRequests.Find.path authorizationRequestID) with
      | some e => rfl
      | none =>
        cases s.p with
        | none => rfl
        | some p =>
          by_cases hk : (resolveOptions E optionss).IdempotencyKey = ""
          all_goals
            simp only [hk, ne_eq, not_true_eq_false, not_false_eq_true, if_true, if_false,
              Bool.false_eq_true]
            generalize http.Request.SetBasicAuth _ _ _ = q
            cases E.Do q with
            | error e => rfl
            | ok res =>
              simp only []
              cases E.jsonDecode res.Body with
              | error e => rfl
              | ok w =>
                simp only []
                cases hs : w.success.getD false <;> simp

/-! ## The end of an operation: send, decode, read the envelope -/

theorem conclude_calls {α : Type} (E : Env) (req : http.Request) (select : Envelope → α) :
    (conclude E req select).calls = [req] := by
  unfold conclude
  cases E.Do req with
  | error e => rfl
  | ok res =>
    simp only []
    cases E.jsonDecode res.Body with
    | error e => rfl
    | ok w =>
      simp only []
      split <;> rfl

theorem conclude_send_error {α : Type} (E : Env) (req : http.Request) (select : Envelope → α)
    (e : GoError) (hd : E.Do req = .error e) :
    conclude E req select = ⟨[req], .returned none (some e)⟩ := by
  unfold conclude
  rw [hd]

theorem conclude_decode_error {α : Type} (E : Env) (req : http.Request)
    (select : Envelope → α) (res : http.Response) (e : GoError)
    (hd : E.Do req = .ok res) (hj : E.jsonDecode res.Body = .error e) :
    conclude E req select = ⟨[req], .returned none (some e)⟩ := by
  unfold conclude
  rw [hd]
  simp only []
  rw [hj]

theorem conclude_failure {α : Type} (E : Env) (req : http.Request) (select : Envelope → α)
    (res : http.Response) (w : Envelope)
    (hd : E.Do req = .ok res) (hj : E.jsonDecode res.Body = .ok w)
    (hs : w.success ≠ some true) :
    conclude E req select
      = ⟨[req], .returned none (some (errors.New (w.message.getD "")))⟩ := by
  unfold conclude
  rw [hd]
  simp only []
  rw [hj]
  have h : ¬ (w.success.getD false = true) := by
    cases hw : w.success with
    | none => simp
    | some b =>
      cases b with
      | false => simp
      | true => exact absurd hw hs
  exact if_neg h

theorem conclude_success {α : Type} (E : Env) (req : http.Request) (select : Envelope → α)
    (res : http.Response) (w : Envelope)
    (hd : E.Do req = .ok res) (hj : E.jsonDecode res.Body = .ok w)
    (hs : w.success = some true) :
    conclude E req select = ⟨[req], .returned (some (select w)) none⟩ := by
  unfold conclude
  rw [hd]
  simp only []
  rw [hj]
  simp [hs]

theorem conclude_result_iff {α : Type} (E : Env) (req : http.Request) (select : Envelope → α)
    (r : Option α) (e : Option GoError)
    (h : (conclude E req select).outcome = .returned r e) : r.isSome = true ↔ e = none := by
  unfold conclude at h
  cases hd : E.Do req with
  | error err =>
    rw [hd] at h
    simp only [Outcome.returned.injEq] at h
    obtain ⟨h1, h2⟩ := h
    subst h1 h2
    simp
  | ok res =>
    rw [hd] at h
    simp only [] at h
    cases hj : E.jsonDecode res.Body with
    | error err =>
      rw [hj] at h
      simp only [Outcome.returned.injEq] at h
      obtain ⟨h1, h2⟩ := h
      subst h1 h2
      simp
    | ok w =>
      rw [hj] at h
      simp only [] at h
      split at h
      all_goals
        simp only [Outcome.returned.injEq] at h
        obtain ⟨h1, h2⟩ := h
        subst h1 h2
        simp

theorem conclude_not_panicked {α : Type} (E : Env) (req : http.Request)
    (select : Envelope → α) (msg : String) :
    (conclude E req select).outcome ≠ .panicked msg := by
  unfold conclude
  cases E.Do req with
  | error e => simp
  | ok res =>
    simp only []
    cases E.jsonDecode res.Body with
    | error e => simp
    | ok w =>
      simp only []
      split <;> simp

/-! ## The common shape: which runs send a request -/

theorem exchange_too_many {α : Type} (E : Env) (s : AuthorizationRequests)
    (optionss : List Options) (method : String) (json : Bool) (obj : Option JsonObject)
    (path : Option String) (select : Envelope → α) (h : 1 < optionss.length) :
    exchange E s optionss method json obj path select = ⟨[], .panicked optionsPanic⟩ := by
  unfold exchange
  simp [h]

theorem exchange_marshal_error {α : Type} (E : Env) (s : AuthorizationRequests)
    (optionss : List Options) (method : String) (json : Bool) (o : JsonObject)
    (path : Option String) (select : Envelope → α) (e : GoError)
    (hlen : optionss.length ≤ 1) (hM : E.Marshal o = .error e) :
    exchange E s optionss method json (some o) path select
      = ⟨[], .returned none (some e)⟩ := by
  unfold exchange
  simp only [gt_iff_lt, Nat.not_lt.mpr hlen, if_false]
  rw [hM]

theorem exchange_validate_error {α : Type} (E : Env) (s : AuthorizationRequests)
    (optionss : List Options) (method : String) (json : Bool) (o : JsonObject)
    (pth : String) (select : Envelope → α) (body : Bytes) (e : GoError)
    (hlen : optionss.length ≤ 1) (hM : E.Marshal o = .ok body)
    (hv : E.validate method (E.Host ++ pth) = some e) :
    exchange E s optionss method json (some o) (some pth) select
      = ⟨[], .returned none (some e)⟩ := by
  unfold exchange
  simp only [gt_iff_lt, Nat.not_lt.mpr hlen, if_false]
  rw [hM]
  simp only []
  rw [hv]

theorem exchange_sends {α : Type} (E : Env) (s : AuthorizationRequests)
    (optionss : List Options) (method : String) (json : Bool) (o : JsonObject)
    (pth : String) (select : Envelope → α) (body : Bytes) (p : ProcessOut)
    (hlen : optionss.length ≤ 1) (hM : E.Marshal o = .ok body)
    (hv : E.validate method (E.Host ++ pth) = none) (hp : s.p = some p) :
    exchange E s optionss method json (some o) (some pth) select
      = conclude E (dress (freshRequest E method pth json body) p (resolveOptions E optionss))
          select := by
  unfold exchange
  simp only [gt_iff_lt, Nat.not_lt.mpr hlen, if_false]
  rw [hM]
  simp only []
  rw [hv]
  simp only []
  rw [hp]

theorem exchange_calls_inv {α : Type} (E : Env) (s : AuthorizationRequests)
    (optionss : List Options) (method : String) (json : Bool) (obj : Option JsonObject)
    (path : Option String) (select : Envelope → α) (req : http.Request)
    (h : req ∈ (exchange E s optionss method json obj path select).calls) :
    optionss.length ≤ 1 ∧ ∃ o body pth p, obj = some o ∧ E.Marshal o = .ok body ∧
      path = some pth ∧ E.validate method (E.Host ++ pth) = none ∧ s.p = some p ∧
      req = dress (freshRequest E method pth json body) p (resolveOptions E optionss) ∧
      exchange E s optionss method json obj path select = conclude E req select := by
  by_cases hlen : 1 < optionss.length
  · rw [exchange_too_many E s optionss method json obj path select hlen] at h
    simp at h
  · have hle : optionss.length ≤ 1 := Nat.not_lt.mp hlen
    refine ⟨hle, ?_⟩
    cases obj with
    | none =>
      unfold exchange at h
      simp [hlen] at h
    | some o =>
      cases hM : E.Marshal o with
      | error e =>
        rw [exchange_marshal_error E s optionss method json o path select e hle hM] at h
        simp at h
      | ok body =>
        cases path with
        | none =>
          unfold exchange at h
          simp [hlen, hM] at h
        | some pth =>
          cases hv : E.validate method (E.Host ++ pth) with
          | some e =>
            rw [exchange_validate_error E s optionss method json o pth select body e
              hle hM hv] at h
            simp at h
          | none =>
            cases hp : s.p with
            | none =>
              unfold exchange at h
              simp [hlen, hM, hv, hp] at h
            | some p =>
              have hx := exchange_sends E s optionss method json o pth select body p
                hle hM hv hp
              rw [hx, conclude_calls] at h
              have hreq : req
                  = dress (freshRequest E method pth json body) p (resolveOptions E optionss) := by
                simpa using h
              refine ⟨o, body, pth, p, rfl, hM, rfl, hv, rfl, hreq, ?_⟩
              rw [hx, hreq]

theorem exchange_of_calls {α : Type} (E : Env) (s : AuthorizationRequests)
    (optionss : List Options) (method : String) (json : Bool) (obj : Option JsonObject)
    (path : Option String) (select : Envelope → α) (req : http.Request)
    (h : (exchange E s optionss method json obj path select).calls = [req]) :
    exchange E s optionss method json obj path select = conclude E req select := by
  have hmem : req ∈ (exchange E s optionss method json obj path select).calls := by
    rw [h]
    simp
  obtain ⟨_, _, _, _, _, _, _, _, _, _, _, hx⟩ :=
    exchange_calls_inv E s optionss method json obj path select req hmem
  exact hx

theorem exchange_calls_length {α : Type} (E : Env) (s : AuthorizationRequests)
    (optionss : List Options) (method : String) (json : Bool) (obj : Option JsonObject)
    (path : Option String) (select : Envelope → α) :
    (exchange E s optionss method json obj path select).calls.length ≤ 1 := by
  cases hc : (exchange E s optionss method json obj path select).calls with
  | nil => simp
  | cons req rest =>
    have hmem : req ∈ (exchange E s optionss method json obj path select).calls := by
      rw [hc]
      simp
    obtain ⟨_, _, _, _, _, _, _, _, _, _, _, hx⟩ :=
      exchange_calls_inv E s optionss method json obj path select req hmem
    rw [hx, conclude_calls] at hc
    rw [← hc]
    simp

theorem exchange_result_iff {α : Type} (E : Env) (s : AuthorizationRequests)
    (optionss : List Options) (method : String) (json : Bool) (obj : Option JsonObject)
    (path : Option String) (select : Envelope → α) (r : Option α) (e : Option GoError)
    (h : (exchange E s optionss method json obj path select).outcome = .returned r e) :
    r.isSome = true ↔ e = none := by
  unfold exchange at h
  split at h
  · simp at h
  · split at h
    · simp at h
    · split at h
      · simp only [Outcome.returned.injEq] at h
        obtain ⟨h1, h2⟩ := h
        subst h1 h2
        simp
      · split at h
        · simp at h
        · split at h
          · simp only [Outcome.returned.injEq] at h
            obtain ⟨h1, h2⟩ := h
            subst h1 h2
            simp
          · split at h
            · simp at h
            · exact conclude_result_iff E _ select r e h

theorem exchange_panic_iff {α : Type} (E : Env) (s : AuthorizationRequests)
    (optionss : List Options) (method : String) (json : Bool) (obj : Option JsonObject)
    (path : Option String) (select : Envelope → α) :
    (exchange E s optionss method json obj path select).outcome = .panicked optionsPanic
      ↔ 1 < optionss.length := by
  constructor
  · intro h
    by_contra hlen
    have hne : nilDereference ≠ optionsPanic := by decide
    unfold exchange at h
    simp only [gt_iff_lt, hlen, if_false] at h
    split at h
    · simp only [Outcome.panicked.injEq] at h
      exact hne h
    · split at h
      · simp at h
      · split at h
        · simp only [Outcome.panicked.injEq] at h
          exact hne h
        · split at h
          · simp at h
          · split at h
            · simp only [Outcome.panicked.injEq] at h
              exact hne h
            · exact conclude_not_panicked E _ select optionsPanic h
  · intro h
    rw [exchange_too_many E s optionss method json obj path select h]

/-! ## Headers of the request that is sent -/

theorem lookup_filter_ne (k k1 : String) (l : List (String × List String)) (h : k1 ≠ k) :
    (l.filter (fun kv => kv.1 != k)).lookup k1 = l.lookup k1 := by
  induction l with
  | nil => rfl
  | cons kv rest ih =>
    obtain ⟨a, v⟩ := kv
    by_cases ha : a = k
    · subst ha
      have hk : (k1 == a) = false := by simpa using h
      simp [List.filter_cons, List.lookup_cons, hk, ih]
    · have hf : (a != k) = true := by simpa using ha
      simp only [List.filter_cons, hf, if_true, List.lookup_cons]
      cases hk : (k1 == a) with
      | true => rfl
      | false => exact ih

theorem Header_Values_Set (h : http.Header) (key value key1 : String) :
    (h.Set key value).Values key1
      = if textproto.CanonicalMIMEHeaderKey key1 = textproto.CanonicalMIMEHeaderKey key
        then some [value] else h.Values key1 := by
  unfold http.Header.Set http.Header.Values
  by_cases hk : textproto.CanonicalMIMEHeaderKey key1 = textproto.CanonicalMIMEHeaderKey key
  · simp [hk, List.lookup_cons]
  · have hb : (textproto.CanonicalMIMEHeaderKey key1 == textproto.CanonicalMIMEHeaderKey key)
        = false := by simpa using hk
    simp only [hk, if_false, List.lookup_cons, hb]
    exact lookup_filter_ne _ _ _ hk

theorem canonical_Authorization :
    textproto.CanonicalMIMEHeaderKey "Authorization" = "Authorization" := by decide

theorem canonical_API_Version :
    textproto.CanonicalMIMEHeaderKey "API-Version" = "Api-Version" := by decide

theorem canonical_Accept : textproto.CanonicalMIMEHeaderKey "Accept" = "Accept" := by decide

theorem canonical_Content_Type :
    textproto.CanonicalMIMEHeaderKey "Content-Type" = "Content-Type" := by decide

theorem canonical_Idempotency_Key :
    textproto.CanonicalMIMEHeaderKey "Idempotency-Key" = "Idempotency-Key" := by decide

theorem Header_Values_empty (key : String) : http.Header.empty.Values key = none := rfl

/-- The request line and body of the request that is sent. -/
theorem dress_line (E : Env) (method pth : String) (json : Bool) (body : Bytes)
    (p : ProcessOut) (options : Options) :
    (dress (freshRequest E method pth json body) p options).Method = method ∧
    (dress (freshRequest E method pth json body) p options).URL = E.Host ++ pth ∧
    (dress (freshRequest E method pth json body) p options).Body = body := by
  unfold dress freshRequest http.Request.SetBasicAuth http.Request.setHeader
  by_cases hk : options.IdempotencyKey = "" <;> cases json <;> simp [hk]

/-- The headers of the request that is sent. -/
theorem dress_headers (E : Env) (method pth : String) (json : Bool) (body : Bytes)
    (p : ProcessOut) (options : Options) :
    (dress (freshRequest E method pth json body) p options).Header.Values "Authorization"
      = some ["Basic " ++ http.basicAuth p.projectID p.projectSecret] ∧
    (dress (freshRequest E method pth json body) p options).Header.Values "API-Version"
      = some [p.APIVersion] ∧
    (dress (freshRequest E method pth json body) p options).Header.Values "Accept"
      = some ["application/json"] ∧
    (dress (freshRequest E method pth json body) p options).Header.Values "Content-Type"
      = (if json = true then some ["application/json"] else none) ∧
    (dress (freshRequest E method pth json body) p options).Header.Values "Idempotency-Key"
      = (if options.IdempotencyKey ≠ "" then some [options.IdempotencyKey] else none) := by
  unfold dress freshRequest http.Request.SetBasicAuth http.Request.setHeader
  by_cases hk : options.IdempotencyKey = "" <;> cases json <;>
    simp [hk, Header_Values_Set, canonical_Authorization, canonical_API_Version,
      canonical_Accept, canonical_Content_Type, canonical_Idempotency_Key,
      Header_Values_empty]

/-! ## Each operation, once it has sent a request, is the shared end on that request -/

theorem Customer_of_calls (E : Env) (s : AuthorizationRequests)
    (ar : Option AuthorizationRequest) (optionss : List Options) (req : http.Request)
    (h : (AuthorizationRequests.Customer E s ar optionss).calls = [req]) :
    AuthorizationRequests.Customer E s ar optionss
      = conclude E req (fun w => w.customer.getD Customer.zero) := by
  rw [Customer_eq_exchange] at h ⊢
  exact exchange_of_calls _ _ _ _ _ _ _ _ _ h

theorem Authorize_of_calls (E : Env) (s : AuthorizationRequests)
    (ar : Option AuthorizationRequest) (gatewayName name token : String)
    (optionss : List Options) (req : http.Request)
    (h : (AuthorizationRequests.Authorize E s ar gatewayName name token optionss).calls = [req]) :
    AuthorizationRequests.Authorize E s ar gatewayName name token optionss
      = conclude E req (fun w => w.token.getD Token.zero) := by
  rw [Authorize_eq_exchange] at h ⊢
  exact exchange_of_calls _ _ _ _ _ _ _ _ _ h

theorem Create_of_calls (E : Env) (s : AuthorizationRequests)
    (ar : Option AuthorizationRequest) (customerID : String) (optionss : List Options)
    (req : http.Request)
    (h : (AuthorizationRequests.Create E s ar customerID optionss).calls = [req]) :
    AuthorizationRequests.Create E s ar customerID optionss
      = conclude E req (fun w => w.authorization_request.getD AuthorizationRequest.zero) := by
  rw [Create_eq_exchange] at h ⊢
  exact exchange_of_calls _ _ _ _ _ _ _ _ _ h

theorem Find_of_calls (E : Env) (s : AuthorizationRequests)
    (authorizationRequestID : String) (optionss : List Options) (req : http.Request)
    (h : (AuthorizationRequests.Find E s authorizationRequestID optionss).calls = [req]) :
    AuthorizationRequests.Find E s authorizationRequestID optionss
      = conclude E req (fun w => w.authorization_request.getD AuthorizationRequest.zero) := by
  rw [Find_eq_exchange] at h ⊢
  exact exchange_of_calls _ _ _ _ _ _ _ _ _ h

/-! ## Requests sent by the common shape -/

/-- Every request sent by the common shape is the dressed fresh request of the client. -/
theorem exchange_headers {α : Type} (E : Env) (p : ProcessOut) (optionss : List Options)
    (method : String) (json : Bool) (obj : Option JsonObject) (path : Option String)
    (select : Envelope → α) (req : http.Request)
    (h : req ∈ (exchange E ⟨some p⟩ optionss method json obj path select).calls) :
    req.Header.Values "Authorization"
      = some ["Basic " ++ http.basicAuth p.projectID p.projectSecret] ∧
    req.Header.Values "API-Version" = some [p.APIVersion] ∧
    req.Header.Values "Accept" = some ["application/json"] ∧
    req.Header.Values "Content-Type"
      = (if json = true then some ["application/json"] else none) ∧
    req.Header.Values "Idempotency-Key"
      = (if (resolveOptions E optionss).IdempotencyKey ≠ ""
          then some [(resolveOptions E optionss).IdempotencyKey] else none) := by
  obtain ⟨_, o, body, pth, q, _, _, _, _, hq, hreq, _⟩ :=
    exchange_calls_inv E ⟨some p⟩ optionss method json obj path select req h
  have hpq : q = p := by
    simp only [Option.some.injEq] at hq
    exact hq.symm
  subst hpq
  rw [hreq]
  exact dress_headers E method pth json body q (resolveOptions E optionss)

/-- The common shape reads the variadic arguments only through their number. -/
theorem exchange_single_option {α : Type} (E : Env) (s : AuthorizationRequests)
    (o1 o2 : Options) (method : String) (json : Bool) (obj : Option JsonObject)
    (path : Option String) (select : Envelope → α) :
    exchange E s [o1] method json obj path select
      = exchange E s [o2] method json obj path select := rfl

theorem resolveOptions_single (E : Env) (o1 o2 : Options) :
    resolveOptions E [o1] = resolveOptions E [o2] := rfl

theorem resolveOptions_nil (E : Env) : resolveOptions E [] = Options.zero := rfl

/-- When marshalling and validation succeed and the client is there, the common shape sends
exactly one request, with the given method, the URL `Host ++ path` and the marshalled body. -/
theorem exchange_request {α : Type} (E : Env) (p : ProcessOut) (optionss : List Options)
    (method : String) (json : Bool) (o : JsonObject) (pth : String) (select : Envelope → α)
    (body : Bytes) (hlen : optionss.length ≤ 1) (hM : E.Marshal o = .ok body)
    (hv : E.validate method (E.Host ++ pth) = none) :
    ∃ req, (exchange E ⟨some p⟩ optionss method json (some o) (some pth) select).calls = [req] ∧
      req.Method = method ∧ req.URL = E.Host ++ pth ∧ req.Body = body := by
  refine ⟨dress (freshRequest E method pth json body) p (resolveOptions E optionss), ?_, ?_⟩
  · rw [exchange_sends E ⟨some p⟩ optionss method json o pth select body p hlen hM hv rfl,
      conclude_calls]
  · exact dress_line E method pth json body p (resolveOptions E optionss)

/-- The body of every request sent by the common shape is the marshalled map. -/
theorem exchange_body {α : Type} (E : Env) (s : AuthorizationRequests)
    (optionss : List Options) (method : String) (json : Bool) (o : JsonObject)
    (path : Option String) (select : Envelope → α) (body : Bytes) (req : http.Request)
    (hM : E.Marshal o = .ok body)
    (h : req ∈ (exchange E s optionss method json (some o) path select).calls) :
    req.Body = body := by
  obtain ⟨_, o1, body1, pth, q, ho, hM1, _, _, _, hreq, _⟩ :=
    exchange_calls_inv E s optionss method json (some o) path select req h
  simp only [Option.some.injEq] at ho
  subst ho
  rw [hM] at hM1
  simp only [Except.ok.injEq] at hM1
  subst hM1
  rw [hreq]
  exact (dress_line E method pth json body q (resolveOptions E optionss)).2.2

/-! ## Claims -/

/-- C1: for each of Customer, Authorize, Create and Find, when the request was sent, the
transport answered and the body decoded to an envelope whose success field is not true
(false, or absent and so left at its zero value), the operation returns a nil result and the
error built by `errors.New` from the envelope's message; the text of that error is the
message, the empty string when the message is absent. -/
theorem C1_failure_envelope_surfaces_message (E : Env) (s : AuthorizationRequests)
    (ar : Option AuthorizationRequest)
    (gatewayName name token customerID authorizationRequestID : String)
    (optionss : List Options) (req : http.Request) (res : http.Response) (w : Envelope)
    (hd : E.Do req = .ok res) (hj : E.jsonDecode res.Body = .ok w)
    (hs : w.success ≠ some true) :
    ((AuthorizationRequests.Customer E s ar optionss).calls = [req] →
      (AuthorizationRequests.Customer E s ar optionss).outcome
        = .returned none (some (errors.New (w.message.getD "")))) ∧
    ((AuthorizationRequests.Authorize E s ar gatewayName name token optionss).calls = [req] →
      (AuthorizationRequests.Authorize E s ar gatewayName name token optionss).outcome
        = .returned none (some (errors.New (w.message.getD "")))) ∧
    ((AuthorizationRequests.Create E s ar customerID optionss).calls = [req] →
      (AuthorizationRequests.Create E s ar customerID optionss).outcome
        = .returned none (some (errors.New (w.message.getD "")))) ∧
    ((AuthorizationRequests.Find E s authorizationRequestID optionss).calls = [req] →
      (AuthorizationRequests.Find E s authorizationRequestID optionss).outcome
        = .returned none (some (errors.New (w.message.getD "")))) ∧
    (errors.New (w.message.getD "")).Error = w.message.getD "" ∧
    (w.message = none → (errors.New (w.message.getD "")).Error = "") := by
  refine ⟨?_, ?_, ?_, ?_, rfl, ?_⟩
  · intro hc
    rw [Customer_of_calls E s ar optionss req hc, conclude_failure E req _ res w hd hj hs]
  · intro hc
    rw [Authorize_of_calls E s ar gatewayName name token optionss req hc,
      conclude_failure E req _ res w hd hj hs]
  · intro hc
    rw [Create_of_calls E s ar customerID optionss req hc,
      conclude_failure E req _ res w hd hj hs]
  · intro hc
    rw [Find_of_calls E s authorizationRequestID optionss req hc,
      conclude_failure E req _ res w hd hj hs]
  · intro hm
    rw [hm]
    rfl

/-- Witness of C1: with a transport whose answer decodes to a failed envelope carrying the
message `declined`, Customer returns nil and the error `declined`, after one call. -/
theorem C1_failure_envelope_surfaces_message_witness :
    (AuthorizationRequests.Customer
        (sampleEnv (.ok ⟨402, "body"⟩) (.ok (sampleEnvelope (some false) (some "declined"))))
        sampleManager (some sampleRecord) []).outcome
      = .returned none (some (errors.New "declined")) :=
  (C1_failure_envelope_surfaces_message
    (sampleEnv (.ok ⟨402, "body"⟩) (.ok (sampleEnvelope (some false) (some "declined"))))
    sampleManager (some sampleRecord) "gw" "n" "t" "cust_1" "ar 1" []
    (dress (freshRequest
        (sampleEnv (.ok ⟨402, "body"⟩) (.ok (sampleEnvelope (some false) (some "declined"))))
        "GET" (AuthorizationRequests.Customer.path sampleRecord) false "expand")
      sampleClient Options.zero)
    ⟨402, "body"⟩ (sampleEnvelope (some false) (some "declined")) rfl rfl (by decide)).1
    (by rfl)

/-- C2: for each of Customer, Authorize, Create and Find, when the request was sent, the
transport answered and the body decoded to an envelope with success = true, the operation
returns a nil error and the resource read from the envelope key `customer` (Customer),
`token` (Authorize) or `authorization_request` (Create, Find), a missing key giving the zero
record; and whenever an operation returns, its result is non-nil exactly when its error is
nil. -/
theorem C2_success_envelope_returns_resource (E : Env) (s : AuthorizationRequests)
    (ar : Option AuthorizationRequest)
    (gatewayName name token customerID authorizationRequestID : String)
    (optionss : List Options) :
    (∀ (req : http.Request) (res : http.Response) (w : Envelope),
      E.Do req = .ok res → E.jsonDecode res.Body = .ok w → w.success = some true →
      ((AuthorizationRequests.Customer E s ar optionss).calls = [req] →
        (AuthorizationRequests.Customer E s ar optionss).outcome
          = .returned (some (w.customer.getD Customer.zero)) none) ∧
      ((AuthorizationRequests.Authorize E s ar gatewayName name token optionss).calls = [req] →
        (AuthorizationRequests.Authorize E s ar gatewayName name token optionss).outcome
          = .returned (some (w.token.getD Token.zero)) none) ∧
      ((AuthorizationRequests.Create E s ar customerID optionss).calls = [req] →
        (AuthorizationRequests.Create E s ar customerID optionss).outcome
          = .returned (some (w.authorization_request.getD AuthorizationRequest.zero)) none) ∧
      ((AuthorizationRequests.Find E s authorizationRequestID optionss).calls = [req] →
        (AuthorizationRequests.Find E s authorizationRequestID optionss).outcome
          = .returned (some (w.authorization_request.getD AuthorizationRequest.zero)) none)) ∧
    (∀ (r : Option Customer) (e : Option GoError),
      (AuthorizationRequests.Customer E s ar optionss).outcome = .returned r e →
        (r.isSome = true ↔ e = none)) ∧
    (∀ (r : Option Token) (e : Option GoError),
      (AuthorizationRequests.Authorize E s ar gatewayName name token optionss).outcome
          = .returned r e →
        (r.isSome = true ↔ e = none)) ∧
    (∀ (r : Option AuthorizationRequest) (e : Option GoError),
      (AuthorizationRequests.Create E s ar customerID optionss).outcome = .returned r e →
        (r.isSome = true ↔ e = none)) ∧
    (∀ (r : Option AuthorizationRequest) (e : Option GoError),
      (AuthorizationRequests.Find E s authorizationRequestID optionss).outcome
          = .returned r e →
        (r.isSome = true ↔ e = none)) := by
  refine ⟨?_, ?_, ?_, ?_, ?_⟩
  · intro req res w hd hj hs
    refine ⟨?_, ?_, ?_, ?_⟩
    · intro hc
      rw [Customer_of_calls E s ar optionss req hc, conclude_success E req _ res w hd hj hs]
    · intro hc
      rw [Authorize_of_calls E s ar gatewayName name token optionss req hc,
        conclude_success E req _ res w hd hj hs]
    · intro hc
      rw [Create_of_calls E s ar customerID optionss req hc,
        conclude_success E req _ res w hd hj hs]
    · intro hc
      rw [Find_of_calls E s authorizationRequestID optionss req hc,
        conclude_success E req _ res w hd hj hs]
  · intro r e h
    rw [Customer_eq_exchange] at h
    exact exchange_result_iff _ _ _ _ _ _ _ _ r e h
  · intro r e h
    rw [Authorize_eq_exchange] at h
    exact exchange_result_iff _ _ _ _ _ _ _ _ r e h
  · intro r e h
    rw [Create_eq_exchange] at h
    exact exchange_result_iff _ _ _ _ _ _ _ _ r e h
  · intro r e h
    rw [Find_eq_exchange] at h
    exact exchange_result_iff _ _ _ _ _ _ _ _ r e h

/-- Witness of C2: with a transport whose answer decodes to a successful envelope, Authorize
returns the token stored under the key `token` and a nil error. -/
theorem C2_success_envelope_returns_resource_witness :
    (AuthorizationRequests.Authorize
        (sampleEnv (.ok ⟨200, "body"⟩) (.ok (sampleEnvelope (some true) none)))
        sampleManager (some sampleRecord) "gw 1" "n" "t" []).outcome
      = .returned (some ⟨[("id", "tok_1")]⟩) none :=
  ((C2_success_envelope_returns_resource
    (sampleEnv (.ok ⟨200, "body"⟩) (.ok (sampleEnvelope (some true) none)))
    sampleManager (some sampleRecord) "gw 1" "n" "t" "cust_1" "ar 1" []).1
    (dress (freshRequest
        (sampleEnv (.ok ⟨200, "body"⟩) (.ok (sampleEnvelope (some true) none)))
        "POST" (AuthorizationRequests.Authorize.path sampleRecord "gw 1") true
        "name,token,expand")
      sampleClient Options.zero)
    ⟨200, "body"⟩ (sampleEnvelope (some true) none) rfl rfl rfl).2.1
    (by rfl)

/-- C3: for each of Customer, Authorize, Create and Find, an error `e` handed back by
`json.Marshal`, by `http.NewRequest`, by `http.DefaultClient.Do` or by the decoding of the
response body is returned as it is, with a nil result; the first two happen before any HTTP
call. In every execution at most one HTTP call is issued. -/
theorem C3_errors_propagate_and_single_call (E : Env) (s : AuthorizationRequests)
    (ar : Option AuthorizationRequest) (r : AuthorizationRequest)
    (gatewayName name token customerID authorizationRequestID : String)
    (optionss : List Options) :
    -- json.Marshal fails
    (∀ e : GoError, optionss.length ≤ 1 →
      (E.Marshal (AuthorizationRequests.Customer.body (resolveOptions E optionss)) = .error e →
        AuthorizationRequests.Customer E s ar optionss = ⟨[], .returned none (some e)⟩) ∧
      (E.Marshal (AuthorizationRequests.Authorize.body name token (resolveOptions E optionss))
          = .error e →
        AuthorizationRequests.Authorize E s ar gatewayName name token optionss
          = ⟨[], .returned none (some e)⟩) ∧
      (E.Marshal (AuthorizationRequests.Create.body r customerID (resolveOptions E optionss))
          = .error e →
        AuthorizationRequests.Create E s (some r) customerID optionss
          = ⟨[], .returned none (some e)⟩) ∧
      (E.Marshal (AuthorizationRequests.Find.body (resolveOptions E optionss)) = .error e →
        AuthorizationRequests.Find E s authorizationRequestID optionss
          = ⟨[], .returned none (some e)⟩)) ∧
    -- http.NewRequest fails
    (∀ (e : GoError) (body : Bytes), optionss.length ≤ 1 →
      (E.Marshal (AuthorizationRequests.Customer.body (resolveOptions E optionss)) = .ok body →
        E.validate "GET" (E.Host ++ AuthorizationRequests.Customer.path r) = some e →
        AuthorizationRequests.Customer E s (some r) optionss
          = ⟨[], .returned none (some e)⟩) ∧
      (E.Marshal (AuthorizationRequests.Authorize.body name token (resolveOptions E optionss))
          = .ok body →
        E.validate "POST" (E.Host ++ AuthorizationRequests.Authorize.path r gatewayName)
          = some e →
        AuthorizationRequests.Authorize E s (some r) gatewayName name token optionss
          = ⟨[], .returned none (some e)⟩) ∧
      (E.Marshal (AuthorizationRequests.Create.body r customerID (resolveOptions E optionss))
          = .ok body →
        E.validate "POST" (E.Host ++ AuthorizationRequests.Create.path) = some e →
        AuthorizationRequests.Create E s (some r) customerID optionss
          = ⟨[], .returned none (some e)⟩) ∧
      (E.Marshal (AuthorizationRequests.Find.body (resolveOptions E optionss)) = .ok body →
        E.validate "GET" (E.Host ++ AuthorizationRequests.Find.path authorizationRequestID)
          = some e →
        AuthorizationRequests.Find E s authorizationRequestID optionss
          = ⟨[], .returned none (some e)⟩)) ∧
    -- http.DefaultClient.Do fails
    (∀ (e : GoError) (req : http.Request), E.Do req = .error e →
      ((AuthorizationRequests.Customer E s ar optionss).calls = [req] →
        (AuthorizationRequests.Customer E s ar optionss).outcome = .returned none (some e)) ∧
      ((AuthorizationRequests.Authorize E s ar gatewayName name token optionss).calls = [req] →
        (AuthorizationRequests.Authorize E s ar gatewayName name token optionss).outcome
          = .returned none (some e)) ∧
      ((AuthorizationRequests.Create E s ar customerID optionss).calls = [req] →
        (AuthorizationRequests.Create E s ar customerID optionss).outcome
          = .returned none (some e)) ∧
      ((AuthorizationRequests.Find E s authorizationRequestID optionss).calls = [req] →
        (AuthorizationRequests.Find E s authorizationRequestID optionss).outcome
          = .returned none (some e))) ∧
    -- decoding the response body fails
    (∀ (e : GoError) (req : http.Request) (res : http.Response),
      E.Do req = .ok res → E.jsonDecode res.Body = .error e →
      ((AuthorizationRequests.Customer E s ar optionss).calls = [req] →
        (AuthorizationRequests.Customer E s ar optionss).outcome = .returned none (some e)) ∧
      ((AuthorizationRequests.Authorize E s ar gatewayName name token optionss).calls = [req] →
        (AuthorizationRequests.Authorize E s ar gatewayName name token optionss).outcome
          = .returned none (some e)) ∧
      ((AuthorizationRequests.Create E s ar customerID optionss).calls = [req] →
        (AuthorizationRequests.Create E s ar customerID optionss).outcome
          = .returned none (some e)) ∧
      ((AuthorizationRequests.Find E s authorizationRequestID optionss).calls = [req] →
        (AuthorizationRequests.Find E s authorizationRequestID optionss).outcome
          = .returned none (some e))) ∧
    -- at most one HTTP call
    (AuthorizationRequests.Customer E s ar optionss).calls.length ≤ 1 ∧
    (AuthorizationRequests.Authorize E s ar gatewayName name token optionss).calls.length ≤ 1 ∧
    (AuthorizationRequests.Create E s ar customerID optionss).calls.length ≤ 1 ∧
    (AuthorizationRequests.Find E s authorizationRequestID optionss).calls.length ≤ 1 := by
  refine ⟨?_, ?_, ?_, ?_, ?_, ?_, ?_, ?_⟩
  · intro e hlen
    refine ⟨?_, ?_, ?_, ?_⟩
    · intro hM
      rw [Customer_eq_exchange]
      exact exchange_marshal_error _ _ _ _ _ _ _ _ e hlen hM
    · intro hM
      rw [Authorize_eq_exchange]
      exact exchange_marshal_error _ _ _ _ _ _ _ _ e hlen hM
    · intro hM
      rw [Create_eq_exchange]
      exact exchange_marshal_error _ _ _ _ _ _ _ _ e hlen hM
    · intro hM
      rw [Find_eq_exchange]
      exact exchange_marshal_error _ _ _ _ _ _ _ _ e hlen hM
  · intro e body hlen
    refine ⟨?_, ?_, ?_, ?_⟩
    · intro hM hv
      rw [Customer_eq_exchange]
      exact exchange_validate_error _ _ _ _ _ _ _ _ body e hlen hM hv
    · intro hM hv
      rw [Authorize_eq_exchange]
      exact exchange_validate_error _ _ _ _ _ _ _ _ body e hlen hM hv
    · intro hM hv
      rw [Create_eq_exchange]
      exact exchange_validate_error _ _ _ _ _ _ _ _ body e hlen hM hv
    · intro hM hv
      rw [Find_eq_exchange]
      exact exchange_validate_error _ _ _ _ _ _ _ _ body e hlen hM hv
  · intro e req hd
    refine ⟨?_, ?_, ?_, ?_⟩
    · intro hc
      rw [Customer_of_calls E s ar optionss req hc, conclude_send_error E req _ e hd]
    · intro hc
      rw [Authorize_of_calls E s ar gatewayName name token optionss req hc,
        conclude_send_error E req _ e hd]
    · intro hc
      rw [Create_of_calls E s ar customerID optionss req hc, conclude_send_error E req _ e hd]
    · intro hc
      rw [Find_of_calls E s authorizationRequestID optionss req hc,
        conclude_send_error E req _ e hd]
  · intro e req res hd hj
    refine ⟨?_, ?_, ?_, ?_⟩
    · intro hc
      rw [Customer_of_calls E s ar optionss req hc, conclude_decode_error E req _ res e hd hj]
    · intro hc
      rw [Authorize_of_calls E s ar gatewayName name token optionss req hc,
        conclude_decode_error E req _ res e hd hj]
    · intro hc
      rw [Create_of_calls E s ar customerID optionss req hc,
        conclude_decode_error E req _ res e hd hj]
    · intro hc
      rw [Find_of_calls E s authorizationRequestID optionss req hc,
        conclude_decode_error E req _ res e hd hj]
  · rw [Customer_eq_exchange]
    exact exchange_calls_length _ _ _ _ _ _ _ _
  · rw [Authorize_eq_exchange]
    exact exchange_calls_length _ _ _ _ _ _ _ _
  · rw [Create_eq_exchange]
    exact exchange_calls_length _ _ _ _ _ _ _ _
  · rw [Find_eq_exchange]
    exact exchange_calls_length _ _ _ _ _ _ _ _

/-- Witness of C3: a failing `json.Marshal` in Create, a failing `http.NewRequest` in Find, a
failing transport in Customer and a failing body decoding in Authorize each hand their error
back unchanged. -/
theorem C3_errors_propagate_and_single_call_witness :
    AuthorizationRequests.Create (sampleEnvMarshalFails (.library "json" "unsupported"))
        sampleManager (some sampleRecord) "cust_1" []
      = ⟨[], .returned none (some (.library "json" "unsupported"))⟩ ∧
    AuthorizationRequests.Find (sampleEnvNewRequestFails (.library "url" "bad host"))
        sampleManager "ar 1" [Options.zero]
      = ⟨[], .returned none (some (.library "url" "bad host"))⟩ ∧
    (AuthorizationRequests.Customer
        (sampleEnv (.error (.library "net" "timeout")) (.ok (sampleEnvelope (some true) none)))
        sampleManager (some sampleRecord) []).outcome
      = .returned none (some (.library "net" "timeout")) ∧
    (AuthorizationRequests.Authorize
        (sampleEnv (.ok ⟨200, "not json"⟩) (.error (.library "json" "syntax")))
        sampleManager (some sampleRecord) "gw 1" "n" "t" []).outcome
      = .returned none (some (.library "json" "syntax")) :=
  ⟨((C3_errors_propagate_and_single_call (sampleEnvMarshalFails (.library "json" "unsupported"))
      sampleManager (some sampleRecord) sampleRecord "gw 1" "n" "t" "cust_1" "ar 1" []).1
      (.library "json" "unsupported") (by decide)).2.2.1 rfl,
   ((C3_errors_propagate_and_single_call (sampleEnvNewRequestFails (.library "url" "bad host"))
      sampleManager (some sampleRecord) sampleRecord "gw 1" "n" "t" "cust_1" "ar 1"
      [Options.zero]).2.1
      (.library "url" "bad host") "expand" (by decide)).2.2.2 rfl rfl,
   ((C3_errors_propagate_and_single_call
      (sampleEnv (.error (.library "net" "timeout")) (.ok (sampleEnvelope (some true) none)))
      sampleManager (some sampleRecord) sampleRecord "gw 1" "n" "t" "cust_1" "ar 1" []).2.2.1
      (.library "net" "timeout")
      (dress (freshRequest
          (sampleEnv (.error (.library "net" "timeout"))
            (.ok (sampleEnvelope (some true) none)))
          "GET" (AuthorizationRequests.Customer.path sampleRecord) false "expand")
        sampleClient Options.zero)
      rfl).1 (by rfl),
   ((C3_errors_propagate_and_single_call
      (sampleEnv (.ok ⟨200, "not json"⟩) (.error (.library "json" "syntax")))
      sampleManager (some sampleRecord) sampleRecord "gw 1" "n" "t" "cust_1" "ar 1" []).2.2.2.1
      (.library "json" "syntax")
      (dress (freshRequest
          (sampleEnv (.ok ⟨200, "not json"⟩) (.error (.library "json" "syntax")))
          "POST" (AuthorizationRequests.Authorize.path sampleRecord "gw 1") true
          "name,token,expand")
        sampleClient Options.zero)
      ⟨200, "not json"⟩ rfl rfl).2.1 (by rfl)⟩

/-- C4: for every client configuration and every argument list, every request sent by
Customer, Authorize, Create or Find carries the `Authorization` header that `SetBasicAuth`
builds from projectID and projectSecret, an `API-Version` header equal to the client's
APIVersion and an `Accept` header equal to `application/json`; the requests of the POST
operations (Authorize, Create) carry `Content-Type: application/json` and the requests of the
GET operations (Customer, Find) carry no `Content-Type`. -/
theorem C4_client_headers (E : Env) (p : ProcessOut) (ar : Option AuthorizationRequest)
    (gatewayName name token customerID authorizationRequestID : String)
    (optionss : List Options) (req : http.Request) :
    (req ∈ (AuthorizationRequests.Customer E ⟨some p⟩ ar optionss).calls →
      req.Header.Values "Authorization"
        = some ["Basic " ++ http.basicAuth p.projectID p.projectSecret] ∧
      req.Header.Values "API-Version" = some [p.APIVersion] ∧
      req.Header.Values "Accept" = some ["application/json"] ∧
      req.Header.Values "Content-Type" = none) ∧
    (req ∈ (AuthorizationRequests.Authorize E ⟨some p⟩ ar gatewayName name token optionss).calls →
      req.Header.Values "Authorization"
        = some ["Basic " ++ http.basicAuth p.projectID p.projectSecret] ∧
      req.Header.Values "API-Version" = some [p.APIVersion] ∧
      req.Header.Values "Accept" = some ["application/json"] ∧
      req.Header.Values "Content-Type" = some ["application/json"]) ∧
    (req ∈ (AuthorizationRequests.Create E ⟨some p⟩ ar customerID optionss).calls →
      req.Header.Values "Authorization"
        = some ["Basic " ++ http.basicAuth p.projectID p.projectSecret] ∧
      req.Header.Values "API-Version" = some [p.APIVersion] ∧
      req.Header.Values "Accept" = some ["application/json"] ∧
      req.Header.Values "Content-Type" = some ["application/json"]) ∧
    (req ∈ (AuthorizationRequests.Find E ⟨some p⟩ authorizationRequestID optionss).calls →
      req.Header.Values "Authorization"
        = some ["Basic " ++ http.basicAuth p.projectID p.projectSecret] ∧
      req.Header.Values "API-Version" = some [p.APIVersion] ∧
      req.Header.Values "Accept" = some ["application/json"] ∧
      req.Header.Values "Content-Type" = none) := by
  refine ⟨?_, ?_, ?_, ?_⟩
  · intro h
    rw [Customer_eq_exchange] at h
    obtain ⟨h1, h2, h3, h4, _⟩ := exchange_headers E p optionss _ _ _ _ _ req h
    exact ⟨h1, h2, h3, by simpa using h4⟩
  · intro h
    rw [Authorize_eq_exchange] at h
    obtain ⟨h1, h2, h3, h4, _⟩ := exchange_headers E p optionss _ _ _ _ _ req h
    exact ⟨h1, h2, h3, by simpa using h4⟩
  · intro h
    rw [Create_eq_exchange] at h
    obtain ⟨h1, h2, h3, h4, _⟩ := exchange_headers E p optionss _ _ _ _ _ req h
    exact ⟨h1, h2, h3, by simpa using h4⟩
  · intro h
    rw [Find_eq_exchange] at h
    obtain ⟨h1, h2, h3, h4, _⟩ := exchange_headers E p optionss _ _ _ _ _ req h
    exact ⟨h1, h2, h3, by simpa using h4⟩

/-- Witness of C4: the request that Create sends for the sample client carries the four
headers. -/
theorem C4_client_headers_witness :
    (dress (freshRequest (sampleEnv (.ok ⟨200, "body"⟩) (.ok (sampleEnvelope (some true) none)))
        "POST" AuthorizationRequests.Create.path true
        "name,currency,return_url,cancel_url,custom,customer_id,expand")
      sampleClient Options.zero).Header.Values "Authorization"
        = some ["Basic " ++ http.basicAuth sampleClient.projectID sampleClient.projectSecret] ∧
    (dress (freshRequest (sampleEnv (.ok ⟨200, "body"⟩) (.ok (sampleEnvelope (some true) none)))
        "POST" AuthorizationRequests.Create.path true
        "name,currency,return_url,cancel_url,custom,customer_id,expand")
      sampleClient Options.zero).Header.Values "API-Version" = some [sampleClient.APIVersion] ∧
    (dress (freshRequest (sampleEnv (.ok ⟨200, "body"⟩) (.ok (sampleEnvelope (some true) none)))
        "POST" AuthorizationRequests.Create.path true
        "name,currency,return_url,cancel_url,custom,customer_id,expand")
      sampleClient Options.zero).Header.Values "Accept" = some ["application/json"] ∧
    (dress (freshRequest (sampleEnv (.ok ⟨200, "body"⟩) (.ok (sampleEnvelope (some true) none)))
        "POST" AuthorizationRequests.Create.path true
        "name,currency,return_url,cancel_url,custom,customer_id,expand")
      sampleClient Options.zero).Header.Values "Content-Type" = some ["application/json"] :=
  (C4_client_headers (sampleEnv (.ok ⟨200, "body"⟩) (.ok (sampleEnvelope (some true) none)))
    sampleClient (some sampleRecord) "gw 1" "n" "t" "cust_1" "ar 1" []
    (dress (freshRequest (sampleEnv (.ok ⟨200, "body"⟩) (.ok (sampleEnvelope (some true) none)))
        "POST" AuthorizationRequests.Create.path true
        "name,currency,return_url,cancel_url,custom,customer_id,expand")
      sampleClient Options.zero)).2.2.1
    (by decide)

/-- C5 (what the code does): the value passed as the single `Options` argument is never
read. Line 47 (and 104, 164, 228) indexes the local `options`, not the list `optionss`, so
two calls that differ only in the passed `Options` value are the same run, whatever the
index expression means; and in the sample environment a call of Find with the key `key-1`
sends a request without an `Idempotency-Key` header. -/
theorem C5_passed_options_not_read :
    (∀ (E : Env) (s : AuthorizationRequests) (ar : Option AuthorizationRequest)
        (gatewayName name token customerID authorizationRequestID : String)
        (o1 o2 : Options),
      AuthorizationRequests.Customer E s ar [o1]
        = AuthorizationRequests.Customer E s ar [o2] ∧
      AuthorizationRequests.Authorize E s ar gatewayName name token [o1]
        = AuthorizationRequests.Authorize E s ar gatewayName name token [o2] ∧
      AuthorizationRequests.Create E s ar customerID [o1]
        = AuthorizationRequests.Create E s ar customerID [o2] ∧
      AuthorizationRequests.Find E s authorizationRequestID [o1]
        = AuthorizationRequests.Find E s authorizationRequestID [o2]) ∧
    ((AuthorizationRequests.Find
        (sampleEnv (.ok ⟨200, "body"⟩) (.ok (sampleEnvelope (some true) none)))
        sampleManager "ar 1" [⟨"key-1", some ["customer"]⟩]).calls.map
      (fun req => req.Header.Values "Idempotency-Key")) = [none] := by
  refine ⟨?_, by decide⟩
  intro E s ar gatewayName name token customerID authorizationRequestID o1 o2
  refine ⟨?_, ?_, ?_, ?_⟩
  · rw [Customer_eq_exchange, Customer_eq_exchange, resolveOptions_single E o1 o2]
    exact exchange_single_option E s o1 o2 _ _ _ _ _
  · rw [Authorize_eq_exchange, Authorize_eq_exchange, resolveOptions_single E o1 o2]
    exact exchange_single_option E s o1 o2 _ _ _ _ _
  · rw [Create_eq_exchange, Create_eq_exchange, resolveOptions_single E o1 o2]
    exact exchange_single_option E s o1 o2 _ _ _ _ _
  · rw [Find_eq_exchange, Find_eq_exchange, resolveOptions_single E o1 o2]
    exact exchange_single_option E s o1 o2 _ _ _ _ _

/-- C6: each of Customer, Authorize, Create and Find ends in the panic `The options
parameter should only be provided once.` exactly when more than one `Options` value is
passed; in that case the run is that panic with no HTTP call, whatever the environment and
the other arguments (nothing is marshalled, built or sent, no pointer is read). -/
theorem C6_options_panic (E : Env) (s : AuthorizationRequests)
    (ar : Option AuthorizationRequest)
    (gatewayName name token customerID authorizationRequestID : String)
    (optionss : List Options) :
    ((AuthorizationRequests.Customer E s ar optionss).outcome = .panicked optionsPanic
        ↔ 1 < optionss.length) ∧
    ((AuthorizationRequests.Authorize E s ar gatewayName name token optionss).outcome
        = .panicked optionsPanic ↔ 1 < optionss.length) ∧
    ((AuthorizationRequests.Create E s ar customerID optionss).outcome
        = .panicked optionsPanic ↔ 1 < optionss.length) ∧
    ((AuthorizationRequests.Find E s authorizationRequestID optionss).outcome
        = .panicked optionsPanic ↔ 1 < optionss.length) ∧
    (1 < optionss.length →
      AuthorizationRequests.Customer E s ar optionss = ⟨[], .panicked optionsPanic⟩ ∧
      AuthorizationRequests.Authorize E s ar gatewayName name token optionss
        = ⟨[], .panicked optionsPanic⟩ ∧
      AuthorizationRequests.Create E s ar customerID optionss
        = ⟨[], .panicked optionsPanic⟩ ∧
      AuthorizationRequests.Find E s authorizationRequestID optionss
        = ⟨[], .panicked optionsPanic⟩) ∧
    optionsPanic = "The options parameter should only be provided once." := by
  refine ⟨?_, ?_, ?_, ?_, ?_, rfl⟩
  · rw [Customer_eq_exchange]
    exact exchange_panic_iff _ _ _ _ _ _ _ _
  · rw [Authorize_eq_exchange]
    exact exchange_panic_iff _ _ _ _ _ _ _ _
  · rw [Create_eq_exchange]
    exact exchange_panic_iff _ _ _ _ _ _ _ _
  · rw [Find_eq_exchange]
    exact exchange_panic_iff _ _ _ _ _ _ _ _
  · intro h
    refine ⟨?_, ?_, ?_, ?_⟩
    · rw [Customer_eq_exchange]
      exact exchange_too_many _ _ _ _ _ _ _ _ h
    · rw [Authorize_eq_exchange]
      exact exchange_too_many _ _ _ _ _ _ _ _ h
    · rw [Create_eq_exchange]
      exact exchange_too_many _ _ _ _ _ _ _ _ h
    · rw [Find_eq_exchange]
      exact exchange_too_many _ _ _ _ _ _ _ _ h

/-- Witness of C6: with two `Options` values, a nil client and a nil record, Customer panics
with the options message and issues no call; with one value and the sample inputs, it does
not end in that panic. -/
theorem C6_options_panic_witness :
    AuthorizationRequests.Customer
        (sampleEnvMarshalFails (.library "json" "unsupported")) ⟨none⟩ none
        [Options.zero, ⟨"key-1", none⟩]
      = ⟨[], .panicked "The options parameter should only be provided once."⟩ :=
  ((C6_options_panic (sampleEnvMarshalFails (.library "json" "unsupported")) ⟨none⟩ none
    "gw 1" "n" "t" "cust_1" "ar 1" [Options.zero, ⟨"key-1", none⟩]).2.2.2.2.1
    (by decide)).1

/-- C7: for every record `r` and customer ID `c`, when marshalling and request validation
succeed, Create sends one POST to `Host ++ "/authorization-requests"` whose body is
`json.Marshal` of the map with exactly the seven keys name, currency, return_url,
cancel_url, custom, customer_id and expand, the first five holding r.Name, r.Currency,
r.ReturnURL, r.CancelURL and r.Custom and customer_id holding `c`; a record that agrees with
`r` on these five fields gives the same run, so ID, URL, Sandbox, CreatedAt, Project and
Customer do not influence the request. -/
theorem C7_create_request (E : Env) (p : ProcessOut) (r : AuthorizationRequest)
    (customerID : String) (optionss : List Options) (body : Bytes)
    (hlen : optionss.length ≤ 1)
    (hM : E.Marshal
        [("name", .str r.Name), ("currency", .str r.Currency),
         ("return_url", .str r.ReturnURL), ("cancel_url", .str r.CancelURL),
         ("custom", .str r.Custom), ("customer_id", .str customerID),
         ("expand", .strings (resolveOptions E optionss).Expand)] = .ok body)
    (hv : E.validate "POST" (E.Host ++ "/authorization-requests") = none) :
    (∃ req, (AuthorizationRequests.Create E ⟨some p⟩ (some r) customerID optionss).calls = [req] ∧
      req.Method = "POST" ∧ req.URL = E.Host ++ "/authorization-requests" ∧
      req.Body = body) ∧
    (∀ (s : AuthorizationRequests) (r2 : AuthorizationRequest),
      r2.Name = r.Name → r2.Currency = r.Currency → r2.ReturnURL = r.ReturnURL →
      r2.CancelURL = r.CancelURL → r2.Custom = r.Custom →
      AuthorizationRequests.Create E s (some r2) customerID optionss
        = AuthorizationRequests.Create E s (some r) customerID optionss) := by
  refine ⟨?_, ?_⟩
  · rw [Create_eq_exchange]
    exact exchange_request E p optionss "POST" true _ _ _ body hlen hM hv
  · intro s r2 h1 h2 h3 h4 h5
    rw [Create_eq_exchange, Create_eq_exchange]
    simp only [Option.map, AuthorizationRequests.Create.body, h1, h2, h3, h4, h5]

/-- Witness of C7: in the sample environment Create sends one POST to
`https://api.processout.com/authorization-requests`. -/
theorem C7_create_request_witness :
    ∃ req, (AuthorizationRequests.Create
        (sampleEnv (.ok ⟨200, "body"⟩) (.ok (sampleEnvelope (some true) none)))
        ⟨some sampleClient⟩ (some sampleRecord) "cust_1" []).calls = [req] ∧
      req.Method = "POST" ∧
      req.URL = "https://api.processout.com" ++ "/authorization-requests" ∧
      req.Body = "name,currency,return_url,cancel_url,custom,customer_id,expand" :=
  (C7_create_request (sampleEnv (.ok ⟨200, "body"⟩) (.ok (sampleEnvelope (some true) none)))
    sampleClient sampleRecord "cust_1" []
    "name,currency,return_url,cancel_url,custom,customer_id,expand"
    (by decide) (by rfl) rfl).1

/-- C8: for every ID `sid`, when marshalling and request validation succeed, Find sends one
GET to `Host ++ "/authorization-requests/" ++ QueryEscape sid`, and Customer, given a record
whose ID is `sid`, sends one GET to
`Host ++ "/authorization-requests/" ++ QueryEscape sid ++ "/customers"`; in both cases the
body is `json.Marshal` of the map with the single key expand, and a record with the same ID
gives the same run of Customer. -/
theorem C8_find_and_customer_request (E : Env) (p : ProcessOut) (r : AuthorizationRequest)
    (sid : String) (optionss : List Options) (body : Bytes)
    (hlen : optionss.length ≤ 1)
    (hM : E.Marshal [("expand", .strings (resolveOptions E optionss).Expand)] = .ok body) :
    (E.validate "GET" (E.Host ++ "/authorization-requests/" ++ url.QueryEscape sid) = none →
      ∃ req, (AuthorizationRequests.Find E ⟨some p⟩ sid optionss).calls = [req] ∧
        req.Method = "GET" ∧
        req.URL = E.Host ++ "/authorization-requests/" ++ url.QueryEscape sid ∧
        req.Body = body) ∧
    (r.ID = sid →
      E.validate "GET"
        (E.Host ++ "/authorization-requests/" ++ url.QueryEscape sid ++ "/customers") = none →
      ∃ req, (AuthorizationRequests.Customer E ⟨some p⟩ (some r) optionss).calls = [req] ∧
        req.Method = "GET" ∧
        req.URL = E.Host ++ "/authorization-requests/" ++ url.QueryEscape sid ++ "/customers" ∧
        req.Body = body) ∧
    (∀ (s : AuthorizationRequests) (r2 : AuthorizationRequest), r2.ID = r.ID →
      AuthorizationRequests.Customer E s (some r2) optionss
        = AuthorizationRequests.Customer E s (some r) optionss) := by
  refine ⟨?_, ?_, ?_⟩
  · intro hv
    have hpath : E.Host ++ AuthorizationRequests.Find.path sid
        = E.Host ++ "/authorization-requests/" ++ url.QueryEscape sid := by
      unfold AuthorizationRequests.Find.path
      rw [String.append_empty, String.append_assoc]
    rw [Find_eq_exchange]
    rw [← hpath] at hv ⊢
    exact exchange_request E p optionss "GET" false _ _ _ body hlen hM hv
  · intro hid hv
    have hpath : E.Host ++ AuthorizationRequests.Customer.path r
        = E.Host ++ "/authorization-requests/" ++ url.QueryEscape sid ++ "/customers" := by
      unfold AuthorizationRequests.Customer.path
      rw [hid, String.append_assoc, String.append_assoc, String.append_assoc]
    rw [Customer_eq_exchange]
    rw [← hpath] at hv ⊢
    exact exchange_request E p optionss "GET" false _ _ _ body hlen hM hv
  · intro s r2 hid
    rw [Customer_eq_exchange, Customer_eq_exchange]
    simp only [Option.map, AuthorizationRequests.Customer.path, hid]

/-- Witness of C8: in the sample environment Find of the ID `ar 1` sends one GET to
`https://api.processout.com/authorization-requests/ar+1`. -/
theorem C8_find_and_customer_request_witness :
    ∃ req, (AuthorizationRequests.Find
        (sampleEnv (.ok ⟨200, "body"⟩) (.ok (sampleEnvelope (some true) none)))
        ⟨some sampleClient⟩ "ar 1" []).calls = [req] ∧
      req.Method = "GET" ∧
      req.URL = "https://api.processout.com" ++ "/authorization-requests/"
        ++ url.QueryEscape "ar 1" ∧
      req.Body = "expand" :=
  (C8_find_and_customer_request
    (sampleEnv (.ok ⟨200, "body"⟩) (.ok (sampleEnvelope (some true) none)))
    sampleClient sampleRecord "ar 1" [] "expand" (by decide) (by rfl)).1 rfl

/-- C9: for every record with ID `sid` and every gatewayName, name and token, when
marshalling and request validation succeed, Authorize sends one POST to
`Host ++ "/authorization-requests/" ++ QueryEscape sid ++ "/gateways/" ++
QueryEscape gatewayName ++ "/tokens"` whose body is `json.Marshal` of the map with exactly
the keys name, token and expand, holding `name` and `token`; the body of every request that
Authorize sends is that same body whatever the gateway name. -/
theorem C9_authorize_request (E : Env) (p : ProcessOut) (r : AuthorizationRequest)
    (sid gatewayName name token : String) (optionss : List Options) (body : Bytes)
    (hlen : optionss.length ≤ 1)
    (hM : E.Marshal
        [("name", .str name), ("token", .str token),
         ("expand", .strings (resolveOptions E optionss).Expand)] = .ok body) :
    (r.ID = sid →
      E.validate "POST"
        (E.Host ++ "/authorization-requests/" ++ url.QueryEscape sid ++ "/gateways/"
          ++ url.QueryEscape gatewayName ++ "/tokens") = none →
      ∃ req, (AuthorizationRequests.Authorize E ⟨some p⟩ (some r) gatewayName name token
          optionss).calls = [req] ∧
        req.Method = "POST" ∧
        req.URL = E.Host ++ "/authorization-requests/" ++ url.QueryEscape sid ++ "/gateways/"
          ++ url.QueryEscape gatewayName ++ "/tokens" ∧
        req.Body = body) ∧
    (∀ (s : AuthorizationRequests) (ar : Option AuthorizationRequest) (g2 : String)
        (req : http.Request),
      req ∈ (AuthorizationRequests.Authorize E s ar g2 name token optionss).calls →
      req.Body = body) := by
  refine ⟨?_, ?_⟩
  · intro hid hv
    have hpath : E.Host ++ AuthorizationRequests.Authorize.path r gatewayName
        = E.Host ++ "/authorization-requests/" ++ url.QueryEscape sid ++ "/gateways/"
          ++ url.QueryEscape gatewayName ++ "/tokens" := by
      unfold AuthorizationRequests.Authorize.path
      rw [hid]
      simp only [String.append_assoc]
    rw [Authorize_eq_exchange]
    rw [← hpath] at hv ⊢
    exact exchange_request E p optionss "POST" true _ _ _ body hlen hM hv
  · intro s ar g2 req h
    rw [Authorize_eq_exchange] at h
    exact exchange_body E s optionss "POST" true _ _ _ body req hM h

/-- Witness of C9: in the sample environment Authorize on the gateway `gw 1` sends one POST
whose path escapes the record ID and the gateway name. -/
theorem C9_authorize_request_witness :
    ∃ req, (AuthorizationRequests.Authorize
        (sampleEnv (.ok ⟨200, "body"⟩) (.ok (sampleEnvelope (some true) none)))
        ⟨some sampleClient⟩ (some sampleRecord) "gw 1" "n" "t" []).calls = [req] ∧
      req.Method = "POST" ∧
      req.URL = "https://api.processout.com" ++ "/authorization-requests/"
        ++ url.QueryEscape "ar 1" ++ "/gateways/" ++ url.QueryEscape "gw 1" ++ "/tokens" ∧
      req.Body = "name,token,expand" :=
  (C9_authorize_request
    (sampleEnv (.ok ⟨200, "body"⟩) (.ok (sampleEnvelope (some true) none)))
    sampleClient sampleRecord "ar 1" "gw 1" "n" "t" [] "name,token,expand"
    (by decide) (by rfl)).1 rfl rfl

end Processout
